import Mathlib

/-!
Verification of the VoidPro compression engine core (v0.1.0) against its
natural-language specification.  The Python modules under `Core/` are embedded
shallowly: byte strings become `List Byte` with `Byte := Fin 256`, floats used
only for threshold comparisons become `ℚ`, the Shannon-entropy computation is
modelled over `ℝ`, fallible operations return `Except`/`Option`, and the opaque
codec backends are abstracted as function parameters.
-/

namespace VoidPro

/-- A byte value, as stored in a Python `bytes` object. -/
abbrev Byte := Fin 256

/-! ## FileAnalyzer (Core/file_analyzer.py)

`FileAnalyzer.__init__` builds the static tables `algorithm_recommendations`,
`entropy_thresholds` and `default_algorithm`; `recommend_algorithm`,
`_calculate_entropy` and `_is_likely_compressible` are the pure functions the
claims are about. -/

/-- The `algorithm_recommendations` dict from `FileAnalyzer.__init__`:
category name to ranked codec list; `none` for a key miss. -/
def algorithm_recommendations (category : String) : Option (List String) :=
  match category with
  | "text" => some ["zstd", "lzma", "brotli", "gzip"]
  | "image" => some ["lz4", "zstd", "zlib"]
  | "audio" => some ["lz4", "zstd", "zlib"]
  | "video" => some ["lz4", "zlib"]
  | "archive" => some ["zstd", "lzma", "lz4"]
  | "executable" => some ["zstd", "lzma", "bz2"]
  | "model" => some ["zstd", "lzma", "brotli"]
  | "shader" => some ["zstd", "lzma", "brotli", "gzip"]
  | "font" => some ["brotli", "zstd", "lzma"]
  | "database" => some ["zstd", "lzma", "bz2"]
  | "gamedata" => some ["zstd", "lzma", "brotli"]
  | _ => none

/-- `entropy_thresholds['low']` (3.0 bits). -/
def entropy_low : ℚ := 3

/-- `entropy_thresholds['high']` (7.0 bits). -/
def entropy_high : ℚ := 7

/-- `self.default_algorithm` from `FileAnalyzer.__init__`. -/
def default_algorithm : String := "zstd"

/-- The fields of the `file_info` dict produced by `analyze_file` that
`recommend_algorithm` reads.  Optional fields model keys whose value may be
`None` (or, for `is_compressible`, an absent key read through
`file_info.get('is_compressible', True)`). -/
structure FileInfo where
  file_type : String
  extension : String
  entropy : Option ℚ
  is_compressible : Option Bool
  chunk_similarity : Option ℚ
deriving DecidableEq, Repr

/-- `FileAnalyzer.recommend_algorithm`, transcribed line by line.  The Python
`if`-chains that may fall through to later checks are modelled by
`Option`-valued intermediate picks. -/
def recommend_algorithm (fi : FileInfo) : String :=
  -- `is_compressible = file_info.get('is_compressible', True)`
  if fi.is_compressible.getD true = false then
    -- `if not is_compressible: return 'lz4'`
    "lz4"
  else
    -- `recommendations = self.algorithm_recommendations.get(file_type, [self.default_algorithm])`
    let recommendations := (algorithm_recommendations fi.file_type).getD [default_algorithm]
    -- `if entropy is not None: ...` with inner returns; no inner return falls through
    let entropyPick : Option String :=
      match fi.entropy with
      | none => none
      | some e =>
        if e < entropy_low then
          if recommendations.contains "lzma" then some "lzma"
          else if recommendations.contains "brotli" then some "brotli"
          else if recommendations.contains "zstd" then some "zstd"
          else none
        else if e > entropy_high then
          if recommendations.contains "lz4" then some "lz4"
          else if recommendations.contains "zlib" then some "zlib"
          else if recommendations.contains "zstd" then some "zstd"
          else none
        else none
    match entropyPick with
    | some a => a
    | none =>
      -- `if chunk_similarity is not None: if chunk_similarity > 0.5: ...`
      let simPick : Option String :=
        match fi.chunk_similarity with
        | none => none
        | some s =>
          if s > 1/2 then
            if recommendations.contains "zstd" then some "zstd"
            else if recommendations.contains "brotli" then some "brotli"
            else none
          else none
      match simPick with
      | some a => a
      | none =>
        -- `return recommendations[0]` (every table entry is a nonempty list)
        recommendations.headD default_algorithm

/-- The `compressed_extensions` list from `_is_likely_compressible`. -/
def compressed_extensions : List String :=
  [".jpg", ".jpeg", ".png", ".gif", ".mp3", ".mp4", ".zip", ".rar",
   ".7z", ".gz", ".xz", ".bz2", ".webp", ".webm", ".opus", ".aac"]

/-- The `signatures` list from `_is_likely_compressible`: ZIP `PK\x03\x04`,
RAR `Rar!\x1A`, GZIP `\x1F\x8B`, BZIP2 `BZh`, XZ `\xFD7zXZ`, PNG `\x89PNG`,
JPEG `\xFF\xD8\xFF`. -/
def analyzer_signatures : List (List Byte) :=
  [[0x50, 0x4B, 0x03, 0x04],
   [0x52, 0x61, 0x72, 0x21, 0x1A],
   [0x1F, 0x8B],
   [0x42, 0x5A, 0x68],
   [0xFD, 0x37, 0x7A, 0x58, 0x5A],
   [0x89, 0x50, 0x4E, 0x47],
   [0xFF, 0xD8, 0xFF]]

/-- `FileAnalyzer._is_likely_compressible(data, extension, entropy)`.  The
Python guard `if entropy and entropy > 7.9` is truthiness of `entropy`
conjoined with the comparison; for `entropy = None` it is false, and for a
number `e` it is `e ≠ 0 ∧ e > 7.9`, which is equivalent to `e > 7.9`. -/
def is_likely_compressible (data : List Byte) (extension : String)
    (entropy : Option ℚ) : Bool :=
  if (match entropy with | some e => decide (e > 79/10) | none => false) then
    false
  else if compressed_extensions.contains extension then
    false
  else if 4 ≤ data.length then
    if analyzer_signatures.any (fun sig => sig.isPrefixOf data) then false
    else true
  else
    true

/-- `FileAnalyzer._calculate_entropy(data)`: Shannon entropy in bits of the
byte-frequency distribution, `entropy -= probability * np.log2(probability)`
summed over the bytes that occur in `data`; `0` for empty input. -/
noncomputable def calculate_entropy (data : List Byte) : ℝ :=
  if data = [] then 0
  else
    ∑ b ∈ data.toFinset,
      -((data.count b : ℝ) / (data.length : ℝ) *
        Real.logb 2 ((data.count b : ℝ) / (data.length : ℝ)))

/-! ## CompressionAlgorithms (Core/compression_algorithms.py)

The `algorithms` dict maps codec names to an availability flag, a level range
and a default level; `zstd`, `lz4` and `brotli` are available only when the
corresponding library import succeeded (`ZSTD_AVAILABLE`, `LZ4_AVAILABLE`,
`BROTLI_AVAILABLE`), which the embedding takes as parameters.  The byte-level
`_compress_*` backends are external collaborators, abstracted as a function
`CompressBackend`; `none` models the backend raising an exception. -/

/-- One entry of the `algorithms` dict (the `compress` function pointer is
carried separately by the backend abstraction). -/
structure AlgoInfo where
  available : Bool
  level_min : Int
  level_max : Int
  default_level : Int
deriving DecidableEq, Repr

/-- The `algorithms` dict from `CompressionAlgorithms.__init__`, keyed by the
requested name; `none` models `algorithm not in self.algorithms`. -/
def algorithms (zstdA lz4A brotliA : Bool) (name : String) : Option AlgoInfo :=
  match name with
  | "zlib" => some ⟨true, 1, 9, 6⟩
  | "gzip" => some ⟨true, 1, 9, 6⟩
  | "lzma" => some ⟨true, 0, 9, 6⟩
  | "bz2" => some ⟨true, 1, 9, 9⟩
  | "zstd" => some ⟨zstdA, 1, 22, 3⟩
  | "lz4" => some ⟨lz4A, 0, 16, 9⟩
  | "brotli" => some ⟨brotliA, 0, 11, 11⟩
  | _ => none

/-- `self.fallback_algorithm` from `CompressionAlgorithms.__init__`. -/
def fallback_algorithm : String := "zlib"

/-- The seven codec names, i.e. the key set of the `algorithms` dict. -/
def algorithm_names : List String :=
  ["zlib", "gzip", "lzma", "bz2", "zstd", "lz4", "brotli"]

/-- An opaque compression backend: codec name, input bytes and level to
compressed bytes, `none` when the backend raises. -/
def CompressBackend := String → List Byte → Int → Option (List Byte)

/-- The metadata dict returned by `compress_file` (the fields that matter to
the pipeline: the sidecar codec identity, the level used, the compressed
artifact contents, and the lzma container sub-format). -/
structure CompressMeta where
  compression_type : String
  algorithm : String
  level : Int
  lzma_format : Option String
  out : List Byte
deriving DecidableEq, Repr

/-- Codec-name resolution at the top of `compress_file`:
`if algorithm not in self.algorithms or not self.algorithms[algorithm]['available']:
algorithm = self.fallback_algorithm`. -/
def resolve_algorithm (zstdA lz4A brotliA : Bool) (algorithm : String) : String :=
  match algorithms zstdA lz4A brotliA algorithm with
  | some info => if info.available then algorithm else fallback_algorithm
  | none => fallback_algorithm

/-- Table lookup for a name known to be in the dict (the fallback entry is
`zlib`'s record, which is only reached on names outside the dict, where the
Python code can no longer go after resolution). -/
def algo_info (zstdA lz4A brotliA : Bool) (name : String) : AlgoInfo :=
  (algorithms zstdA lz4A brotliA name).getD ⟨true, 1, 9, 6⟩

/-- Level selection in `compress_file`: `None` or an out-of-range level
becomes the codec's default level. -/
def select_level (info : AlgoInfo) (level : Option Int) : Int :=
  match level with
  | none => info.default_level
  | some l => if l < info.level_min ∨ l > info.level_max then info.default_level else l

/-- The `compression_type` (plus `lzma_format`) metadata written by each
`_compress_*` helper: every helper reports its own codec name, and only
`_compress_lzma` adds `'lzma_format': 'xz'`. -/
def backend_meta (name : String) (lvl : Int) (out : List Byte) : CompressMeta :=
  ⟨name, name, lvl, if name = "lzma" then some "xz" else none, out⟩

/-- One pass of the `compress_file` body without the `except` clause: resolve
the codec, pick the level, call the backend, and on success assemble the
metadata dict. -/
def compress_once (zstdA lz4A brotliA : Bool) (backend : CompressBackend)
    (data : List Byte) (algorithm : String) (level : Option Int) :
    Except Unit CompressMeta × List (String × Int) :=
  let algo := resolve_algorithm zstdA lz4A brotliA algorithm
  let lvl := select_level (algo_info zstdA lz4A brotliA algo) level
  match backend algo data lvl with
  | some out => (Except.ok (backend_meta algo lvl out), [(algo, lvl)])
  | none => (Except.error (), [(algo, lvl)])

/-- `CompressionAlgorithms.compress_file`, with the recursion of the `except`
clause unrolled: the recursive call passes `algorithm=self.fallback_algorithm`
(and no level), which resolves to itself, so it can recurse at most once.
Alongside the result the model returns the list of `(codec, level)` backend
invocations actually attempted, in order. -/
def compress_file (zstdA lz4A brotliA : Bool) (backend : CompressBackend)
    (data : List Byte) (algorithm : String) (level : Option Int) :
    Except Unit CompressMeta × List (String × Int) :=
  let first := compress_once zstdA lz4A brotliA backend data algorithm level
  match first.1 with
  | Except.ok m => (Except.ok m, first.2)
  | Except.error _ =>
    -- `except`: `if algorithm != self.fallback_algorithm: return self.compress_file(
    --   input_file, output_file, algorithm=self.fallback_algorithm)` else re-raise
    if resolve_algorithm zstdA lz4A brotliA algorithm ≠ fallback_algorithm then
      let second := compress_once zstdA lz4A brotliA backend data fallback_algorithm none
      (second.1, first.2 ++ second.2)
    else
      (Except.error (), first.2)

/-! ## Decompressor (Core/decompression.py)

`_determine_compression_type` resolves a codec name from the sidecar metadata
file, the file-name suffix table, a magic-byte sniff of the first bytes, and a
hard-coded default, in that order.  `decompress_file` dispatches on the
resolved name through the `decompressors` dict. -/

/-- The key set of the `decompressors` dict in `Decompressor.__init__`. -/
def decompressor_names : List String :=
  ["zlib", "gzip", "lzma", "bz2", "zstd", "lz4", "brotli"]

/-- The `extension_to_type` dict from `Decompressor.__init__`, in insertion
order (the order `_determine_compression_type` iterates it in). -/
def extension_to_type : List (String × String) :=
  [(".gz", "gzip"), (".xz", "lzma"), (".bz2", "bz2"), (".zst", "zstd"),
   (".lz4", "lz4"), (".br", "brotli"), (".z", "zlib")]

/-- The magic-byte chain in `_determine_compression_type`, applied to the
first (at most 8) bytes of the file: gzip `1F 8B`, xz `FD 37 7A 58 5A`,
bz2 `BZh`, zstd `28 B5 2F FD`, lz4 `04 22 4D 18`. -/
def magic_type (header : List Byte) : Option String :=
  if ([0x1F, 0x8B] : List Byte).isPrefixOf header then some "gzip"
  else if ([0xFD, 0x37, 0x7A, 0x58, 0x5A] : List Byte).isPrefixOf header then some "lzma"
  else if ([0x42, 0x5A, 0x68] : List Byte).isPrefixOf header then some "bz2"
  else if ([0x28, 0xB5, 0x2F, 0xFD] : List Byte).isPrefixOf header then some "zstd"
  else if ([0x04, 0x22, 0x4D, 0x18] : List Byte).isPrefixOf header then some "lz4"
  else none

/-- The on-disk context `_determine_compression_type` consults: the file name,
the first bytes of the file (`none` when the read raises), and the
`compression_type` field of an existing, parseable `.gcmeta` sidecar (`none`
when the sidecar is absent, unreadable, or lacks the key — the code treats all
three alike by falling through). -/
structure FileCtx where
  name : String
  header : Option (List Byte)
  sidecarType : Option String
deriving DecidableEq, Repr

/-- `Decompressor._determine_compression_type`, stage by stage: sidecar
metadata, then the `extension_to_type` suffix scan (`file_path.name.endswith`),
then the magic-byte chain, then the hard-coded `'zlib'` fallback. -/
def determine_compression_type (ctx : FileCtx) : String :=
  match ctx.sidecarType with
  | some t => t
  | none =>
    match extension_to_type.find? (fun p => p.1.toList.isSuffixOf ctx.name.toList) with
    | some p => p.2
    | none =>
      match ctx.header with
      | some h =>
        match magic_type h with
        | some t => t
        | none => "zlib"
      | none => "zlib"

/-- An opaque decompression backend: codec name and compressed bytes to
original bytes, `none` when the backend raises. -/
def DecompressBackend := String → List Byte → Option (List Byte)

/-- `Decompressor.decompress_file`: pick `compression_type` from the metadata
argument when given (the empty string models a falsy
`metadata.get('compression_type')`), else from `_determine_compression_type`;
reject an unknown type; then run the backend, re-raising its failure. -/
def decompress_file (backend : DecompressBackend) (ctx : FileCtx)
    (metadata : Option CompressMeta) (input : List Byte) :
    Except String (List Byte) :=
  let compression_type :=
    match metadata with
    | none => determine_compression_type ctx
    | some m => m.compression_type
  if compression_type = "" then
    Except.error "Could not determine compression type"
  else if decompressor_names.contains compression_type then
    match backend compression_type input with
    | some out => Except.ok out
    | none => Except.error "backend failure"
  else
    Except.error "Unsupported compression type"

/-! ## CompressEngine (Core/compression_engine.py)

`compress_directory` and `decompress_directory` fold per-file work over a
directory walk.  The per-file work (analyze, recommend, compress, write the
sidecar) is abstracted into each file entry as its outcome, which is what the
`try`/`except` bookkeeping the claims are about observes. -/

/-- One file seen by `compress_directory`: whether its suffix is the
compressed-artifact extension `.gcmp`, its size, and the outcome of the
`try`-block body (`none` models any exception raised while analyzing or
compressing it; `some sz` a successful compression with compressed size
`sz`). -/
structure CDirFile where
  isCompressedExt : Bool
  size : Nat
  outcome : Option Nat
deriving DecidableEq, Repr

/-- The counters of the `stats` dict that the claims mention. -/
structure CDirStats where
  original_size_bytes : Nat
  compressed_size_bytes : Nat
  file_count : Nat
  skipped_count : Nat
  failed_count : Nat
deriving DecidableEq, Repr

/-- The per-file body of the `compress_directory` loop. -/
def compress_directory_step (force : Bool) (stats : CDirStats) (f : CDirFile) :
    CDirStats :=
  if f.isCompressedExt ∧ ¬ force then
    { stats with skipped_count := stats.skipped_count + 1 }
  else
    let stats := { stats with
      original_size_bytes := stats.original_size_bytes + f.size }
    match f.outcome with
    | some compressed_size =>
      { stats with
        compressed_size_bytes := stats.compressed_size_bytes + compressed_size,
        file_count := stats.file_count + 1 }
    | none => { stats with failed_count := stats.failed_count + 1 }

/-- `CompressEngine.compress_directory`: every per-file exception is caught by
the loop's `except` clause and recorded in `failed_count`; nothing escapes. -/
def compress_directory (force : Bool) (files : List CDirFile) : CDirStats :=
  files.foldl (compress_directory_step force) ⟨0, 0, 0, 0, 0⟩

/-- What `CompressEngine.decompress_file` can do with a `.gcmp` file, as far
as its caller can observe: the state of the sidecar metadata file (read
*outside* the `try` block) and whether the `try`-protected call to
`Decompressor.decompress_file` succeeds. -/
inductive MetaState where
  | absent
  | corrupt
  | parsed (meta : CompressMeta)
deriving DecidableEq, Repr

/-- One file seen by `decompress_directory`. -/
structure DDirFile where
  isCompressedExt : Bool
  metaState : MetaState
  decompressOk : Bool
deriving DecidableEq, Repr

/-- `CompressEngine.decompress_file` on a `.gcmp` file, as an
exception-or-return observation: reading a corrupt sidecar raises *before*
the `try` block (`Except.error`), while a failure of the inner
`Decompressor.decompress_file` call is caught and turned into `None`
(`Except.ok none`); success returns the output path (`Except.ok (some ())`). -/
def engine_decompress_file (f : DDirFile) : Except Unit (Option Unit) :=
  match f.metaState with
  | MetaState.corrupt => Except.error ()
  | _ => if f.decompressOk then Except.ok (some ()) else Except.ok none

/-- `CompressEngine.decompress_directory`: for each file with the `.gcmp`
suffix, call `decompress_file` inside `try`; count `success_count` whenever it
returns (whatever it returns), `fail_count` when it raises.  Returns
`(success_count, fail_count)` (the Python function returns only the former,
the latter is logged). -/
def decompress_directory_step (counts : Nat × Nat) (f : DDirFile) : Nat × Nat :=
  if f.isCompressedExt then
    match engine_decompress_file f with
    | Except.ok _ => (counts.1 + 1, counts.2)
    | Except.error _ => (counts.1, counts.2 + 1)
  else counts

/-- `CompressEngine.decompress_directory` folds the per-file step over the
walk, starting from zero counts. -/
def decompress_directory (files : List DDirFile) : Nat × Nat :=
  files.foldl decompress_directory_step (0, 0)

/-! ## FileVerifier (Core/file_verification.py)

`verify_file` compares a freshly computed verification record against a
reference record; `verify_directory` aggregates per-file results.  The hash
functions themselves (`crc32`, `md5`, `sha1`, `sha256`) are opaque, modelled
as a function parameter. -/

/-- A verification record: the file size and the ordered
algorithm-to-digest map (Python dicts preserve insertion order). -/
structure VRecord where
  file_size : Nat
  hashes : List (String × String)
deriving DecidableEq, Repr

/-- The outcome of `verify_file`: the `verified` flag and the `error`
description, reduced to which field the code reports. -/
inductive VerifyOutcome where
  | ok
  | sizeMismatch
  | hashMismatch (algo : String)
deriving DecidableEq, Repr

/-- The comparison core of `FileVerifier.verify_file` once a reference record
is at hand: compare `file_size` first, then walk the reference hashes in
order, skipping algorithms absent from the current record, and fail on the
first differing digest; `hash` abstracts the hash backends and `content` is
the current file's bytes.  When the caller passes no algorithm list the
current record is computed for `list(reference['hashes'].keys())`. -/
def verify_file (hash : String → List Byte → String) (content : List Byte)
    (reference : VRecord) (algorithms : Option (List String)) : VerifyOutcome :=
  let algos :=
    match algorithms with
    | some l => if l = [] then reference.hashes.map Prod.fst else l
    | none => reference.hashes.map Prod.fst
  let current : VRecord := ⟨content.length, algos.map (fun a => (a, hash a content))⟩
  if current.file_size ≠ reference.file_size then
    VerifyOutcome.sizeMismatch
  else
    match reference.hashes.find? (fun p =>
        match current.hashes.lookup p.1 with
        | some ch => decide (ch ≠ p.2)
        | none => false) with
    | some p => VerifyOutcome.hashMismatch p.1
    | none => VerifyOutcome.ok

/-- One file seen by `verify_directory` in its no-`files_map`,
no-`original_dir` branch: whether a `.gcverify` record exists for it and, if
so, whether `verify_file` reports it verified. -/
structure VFile where
  hasVerifyData : Bool
  verifyOk : Bool
deriving DecidableEq, Repr

/-- The counters of the `results` dict of `verify_directory`. -/
structure VDirStats where
  total_files : Nat
  verified_files : Nat
  failed_files : Nat
  missing_verification : Nat
deriving DecidableEq, Repr

/-- `FileVerifier.verify_directory` (verification-data branch): a file with no
`.gcverify` record gets `verify_file`'s `{'verified': False, 'error': 'No
verification data found...'}` result, and the loop then branches only on
`verified`, so it lands in `failed_files`; the `missing_verification` counter
is initialized and never incremented anywhere in the function. -/
def verify_directory (files : List VFile) : VDirStats :=
  files.foldl
    (fun stats f =>
      let stats := { stats with total_files := stats.total_files + 1 }
      if f.hasVerifyData ∧ f.verifyOk then
        { stats with verified_files := stats.verified_files + 1 }
      else
        { stats with failed_files := stats.failed_files + 1 })
    ⟨0, 0, 0, 0⟩

/-! ## Spec-side definitions

These definitions transcribe the *claims'* wording (not the source), to be
compared against the source-derived functions above. -/

/-- The first element of the preference list `prefs` that is present in the
ranked list `recs` — the claims' "the first of ... present in the category's
ranked list". -/
def firstPresentIn (prefs recs : List String) : Option String :=
  prefs.find? (fun a => recs.contains a)

/-- The decision policy exactly as the spec states it: layered overrides in
the order compressibility, then entropy (low prefers `lzma`, `brotli`, `zstd`;
high prefers `lz4`, `zlib`, `zstd`), then chunk similarity (prefers `zstd`,
`brotli`), then the head of the category's ranked list, an unknown category
contributing the one-element list holding the default codec. -/
def recommend_algorithm_spec (fi : FileInfo) : String :=
  if fi.is_compressible.getD true = false then "lz4"
  else
    let recs := (algorithm_recommendations fi.file_type).getD [default_algorithm]
    let entropyPick : Option String :=
      match fi.entropy with
      | none => none
      | some e =>
        if e < 3 then firstPresentIn ["lzma", "brotli", "zstd"] recs
        else if e > 7 then firstPresentIn ["lz4", "zlib", "zstd"] recs
        else none
    match entropyPick with
    | some a => a
    | none =>
      let simPick : Option String :=
        match fi.chunk_similarity with
        | none => none
        | some s => if s > 1/2 then firstPresentIn ["zstd", "brotli"] recs else none
      match simPick with
      | some a => a
      | none => recs.headD default_algorithm

/-- The magic-byte signature table as the spec's interoperability section and
claims C3/C4 list it: gzip `1F 8B`, lzma/xz `FD 37 7A 58 5A`, bz2 `BZh`,
zstd `28 B5 2F FD`, lz4 `04 22 4D 18`. -/
def spec_magic_table : List (List Byte × String) :=
  [([0x1F, 0x8B], "gzip"),
   ([0xFD, 0x37, 0x7A, 0x58, 0x5A], "lzma"),
   ([0x42, 0x5A, 0x68], "bz2"),
   ([0x28, 0xB5, 0x2F, 0xFD], "zstd"),
   ([0x04, 0x22, 0x4D, 0x18], "lz4")]

/-- The extension-to-codec table as claim C4 lists it. -/
def spec_extension_table : List (String × String) :=
  [(".gz", "gzip"), (".xz", "lzma"), (".bz2", "bz2"), (".zst", "zstd"),
   (".lz4", "lz4"), (".br", "brotli"), (".z", "zlib")]

/-! ## Helper lemmas -/

/-- A three-step `if contains` chain is the first preference present. -/
theorem chain_three (recs : List String) (a b c : String) :
    (if recs.contains a then some a
     else if recs.contains b then some b
     else if recs.contains c then some c
     else none) = firstPresentIn [a, b, c] recs := by
  cases ha : recs.contains a <;> cases hb : recs.contains b <;>
    cases hc : recs.contains c <;>
    simp only [firstPresentIn, List.find?, ha, hb, hc, if_true, if_false,
      Bool.false_eq_true, Bool.true_eq_false, ite_true, ite_false]

/-- A two-step `if contains` chain is the first preference present. -/
theorem chain_two (recs : List String) (a b : String) :
    (if recs.contains a then some a
     else if recs.contains b then some b
     else none) = firstPresentIn [a, b] recs := by
  cases ha : recs.contains a <;> cases hb : recs.contains b <;>
    simp only [firstPresentIn, List.find?, ha, hb, if_true, if_false,
      Bool.false_eq_true, Bool.true_eq_false, ite_true, ite_false]

/-- Claim C1: `recommend_algorithm` implements exactly the layered override
order compressibility → entropy → chunk similarity → category default of the
spec's decision policy (first conjunct), and for an unknown category every
compressible profile gets the default codec `zstd` (second conjunct). -/
theorem recommend_algorithm_layered_policy :
    (∀ fi : FileInfo, recommend_algorithm fi = recommend_algorithm_spec fi) ∧
    (∀ fi : FileInfo, fi.is_compressible.getD true = true →
      algorithm_recommendations fi.file_type = none →
      recommend_algorithm fi = "zstd") := by
  constructor
  · intro fi
    rcases fi with ⟨ft, ext, ent, ic, cs⟩
    simp only [recommend_algorithm, recommend_algorithm_spec, entropy_low,
      entropy_high]
    simp only [chain_three]
    simp only [chain_two]
  · intro fi hic htab
    rcases fi with ⟨ft, ext, ent, ic, cs⟩
    simp only at hic htab
    simp only [recommend_algorithm, hic, htab, Option.getD_none,
      Bool.true_eq_false, if_false, default_algorithm]
    rcases ent with _ | e <;> rcases cs with _ | s
    all_goals (first | rfl | (split_ifs <;> simp_all))
    all_goals (first | rfl | (split_ifs <;> simp_all))

/-- Witness for C1 at concrete profiles: a text-category profile with low
entropy follows the spec policy, and an unknown compressible category yields
`zstd`. -/
theorem recommend_algorithm_layered_policy_witness :
    recommend_algorithm ⟨"text", ".txt", some 2, some true, none⟩ =
      recommend_algorithm_spec ⟨"text", ".txt", some 2, some true, none⟩ ∧
    recommend_algorithm ⟨"mystery", ".qqq", some 5, some true, some 1⟩ = "zstd" :=
  ⟨recommend_algorithm_layered_policy.1 _,
   recommend_algorithm_layered_policy.2 ⟨"mystery", ".qqq", some 5, some true, some 1⟩
     (by decide) (by decide)⟩

/-- Claim C3 counterexample: the zstd magic `28 B5 2F FD` is in the claimed
signature table, yet `_is_likely_compressible` judges a sample starting with
it (with a neutral extension and mid-range entropy) compressible: the
analyzer's own signature list has no zstd (or lz4) entry. -/
theorem zstd_magic_judged_compressible :
    ([0x28, 0xB5, 0x2F, 0xFD], "zstd") ∈ spec_magic_table ∧
    is_likely_compressible [0x28, 0xB5, 0x2F, 0xFD] ".dat" (some 5) = true := by
  constructor
  · decide
  · have h1 : ¬ ((5 : ℚ) > 79/10) := by norm_num
    simp [is_likely_compressible, h1]
    exact ⟨by decide, by decide⟩

/-- Claim C3 as amended: a sample of at least 4 bytes whose leading bytes
match a signature from the analyzer's own table (ZIP, RAR, gzip, bzip2, xz,
PNG, JPEG) is always judged non-compressible; the zstd and lz4 magic numbers
of the spec's interoperability table are not in that list. -/
theorem is_likely_compressible_signature_amended :
    (∀ (data : List Byte) (extension : String) (entropy : Option ℚ),
      4 ≤ data.length →
      (analyzer_signatures.any fun sig => sig.isPrefixOf data) = true →
      is_likely_compressible data extension entropy = false) ∧
    ([0x28, 0xB5, 0x2F, 0xFD] : List Byte) ∉ analyzer_signatures ∧
    ([0x04, 0x22, 0x4D, 0x18] : List Byte) ∉ analyzer_signatures := by
  refine ⟨?_, by decide, by decide⟩
  intro data ext ent h4 hsig
  unfold is_likely_compressible
  split_ifs <;> simp_all

/-- Witness for the amended C3 at a gzip-magic sample. -/
theorem is_likely_compressible_signature_amended_witness :
    4 ≤ ([0x1F, 0x8B, 0x00, 0x00] : List Byte).length ∧
    (analyzer_signatures.any fun sig =>
      sig.isPrefixOf ([0x1F, 0x8B, 0x00, 0x00] : List Byte)) = true ∧
    is_likely_compressible [0x1F, 0x8B, 0x00, 0x00] ".txt" none = false :=
  ⟨by decide, by decide,
   is_likely_compressible_signature_amended.1 _ ".txt" none (by decide) (by decide)⟩

/-- Claim C4: `_determine_compression_type` resolves the codec through the
four stages in order — sidecar metadata field, extension table, magic-byte
match, default `'zlib'` — an earlier stage preempting all later ones; the
magic-byte stage implements exactly the spec's five-entry signature table in
order, and the extension stage exactly the claimed extension table. -/
theorem determine_compression_type_resolution_order :
    (∀ (ctx : FileCtx) (t : String), ctx.sidecarType = some t →
      determine_compression_type ctx = t) ∧
    (∀ (ctx : FileCtx) (p : String × String), ctx.sidecarType = none →
      extension_to_type.find? (fun q => q.1.toList.isSuffixOf ctx.name.toList) = some p →
      determine_compression_type ctx = p.2) ∧
    (∀ header : List Byte, magic_type header =
      (spec_magic_table.find? fun q => q.1.isPrefixOf header).map Prod.snd) ∧
    (∀ (ctx : FileCtx) (h : List Byte) (t : String), ctx.sidecarType = none →
      extension_to_type.find? (fun q => q.1.toList.isSuffixOf ctx.name.toList) = none →
      ctx.header = some h → magic_type h = some t →
      determine_compression_type ctx = t) ∧
    (∀ ctx : FileCtx, ctx.sidecarType = none →
      extension_to_type.find? (fun q => q.1.toList.isSuffixOf ctx.name.toList) = none →
      (∀ h, ctx.header = some h → magic_type h = none) →
      determine_compression_type ctx = "zlib") ∧
    extension_to_type = spec_extension_table := by
  refine ⟨?_, ?_, ?_, ?_, ?_, rfl⟩
  · intro ctx t ht
    simp [determine_compression_type, ht]
  · intro ctx p hs hf
    unfold determine_compression_type
    rw [hs, hf]
  · intro header
    unfold magic_type spec_magic_table
    simp only [List.find?]
    cases h1 : (([0x1F, 0x8B] : List Byte).isPrefixOf header) <;>
      cases h2 : (([0xFD, 0x37, 0x7A, 0x58, 0x5A] : List Byte).isPrefixOf header) <;>
      cases h3 : (([0x42, 0x5A, 0x68] : List Byte).isPrefixOf header) <;>
      cases h4 : (([0x28, 0xB5, 0x2F, 0xFD] : List Byte).isPrefixOf header) <;>
      cases h5 : (([0x04, 0x22, 0x4D, 0x18] : List Byte).isPrefixOf header) <;>
      simp_all
  · intro ctx h t hs hf hh hm
    unfold determine_compression_type
    rw [hs, hf, hh]
    simp [hm]
  · intro ctx hs hf hm
    rcases ctx with ⟨name, header, sidecar⟩
    simp only at hs hf hm
    subst hs
    simp only [determine_compression_type, hf]
    rcases header with _ | h
    · rfl
    · simp [hm h rfl]

/-- Witness for C4, exercising each resolution stage on a concrete file
context. -/
theorem determine_compression_type_resolution_order_witness :
    determine_compression_type ⟨"a.gcmp", none, some "zstd"⟩ = "zstd" ∧
    determine_compression_type ⟨"a.gz", none, none⟩ = "gzip" ∧
    determine_compression_type
      ⟨"a.bin", some [0x28, 0xB5, 0x2F, 0xFD, 0, 0, 0, 0], none⟩ = "zstd" ∧
    determine_compression_type ⟨"a.bin", some [0, 0], none⟩ = "zlib" :=
  ⟨determine_compression_type_resolution_order.1 _ _ rfl,
   determine_compression_type_resolution_order.2.1 ⟨"a.gz", none, none⟩
     (".gz", "gzip") rfl (by decide),
   determine_compression_type_resolution_order.2.2.2.1
     ⟨"a.bin", some [0x28, 0xB5, 0x2F, 0xFD, 0, 0, 0, 0], none⟩ _ _
     rfl (by decide) rfl (by decide),
   determine_compression_type_resolution_order.2.2.2.2.1
     ⟨"a.bin", some [0, 0], none⟩ rfl (by decide)
     (fun h hh => by cases hh; decide)⟩

/-- A name the `algorithms` dict knows is one of the seven codec names. -/
theorem algorithms_some_mem (zA lA bA : Bool) (a : String) (info : AlgoInfo)
    (h : algorithms zA lA bA a = some info) : a ∈ algorithm_names := by
  unfold algorithms at h
  split at h <;> simp_all [algorithm_names]

/-- The resolved codec name is always one of the seven codec names. -/
theorem resolve_algorithm_mem (zA lA bA : Bool) (a : String) :
    resolve_algorithm zA lA bA a ∈ algorithm_names := by
  unfold resolve_algorithm
  rcases h : algorithms zA lA bA a with _ | info
  · show fallback_algorithm ∈ algorithm_names
    decide
  · show (if info.available = true then a else fallback_algorithm) ∈ algorithm_names
    by_cases hav : info.available = true
    · rw [if_pos hav]
      exact algorithms_some_mem zA lA bA a info h
    · rw [if_neg hav]
      decide

/-- `compress_file` observes the requested name only through resolution. -/
theorem compress_file_eq_of_resolve_eq (zA lA bA : Bool)
    (backend : CompressBackend) (data : List Byte) (a₁ a₂ : String)
    (level : Option Int)
    (h : resolve_algorithm zA lA bA a₁ = resolve_algorithm zA lA bA a₂) :
    compress_file zA lA bA backend data a₁ level =
      compress_file zA lA bA backend data a₂ level := by
  unfold compress_file compress_once
  rw [h]

/-- An unknown or unavailable requested codec resolves to the fallback. -/
theorem resolve_eq_fallback (zA lA bA : Bool) (a : String)
    (h : algorithms zA lA bA a = none ∨
      ∃ info, algorithms zA lA bA a = some info ∧ info.available = false) :
    resolve_algorithm zA lA bA a = fallback_algorithm := by
  unfold resolve_algorithm
  rcases h with h | ⟨info, h, hav⟩
  · simp [h]
  · simp [h, hav]

/-- Claim C8 counterexample: a request for an unknown codec name is not
surfaced as an error — `compress_file` silently compresses with the fallback
codec `zlib` and reports success. -/
theorem unknown_codec_not_surfaced :
    algorithms true true true "nosuch" = none ∧
    (compress_file true true true (fun _ data _ => some data) [1, 2] "nosuch"
        none).1 =
      Except.ok ⟨"zlib", "zlib", 6, none, [1, 2]⟩ :=
  ⟨rfl, rfl⟩

/-- Claim C8 as amended: when the requested codec identifier is unknown or
its backend is unavailable, `compress_file` raises nothing — it logs a
warning and behaves exactly as if the fallback codec `zlib` had been
requested. -/
theorem unsupported_codec_silent_fallback (zA lA bA : Bool)
    (backend : CompressBackend) (data : List Byte) (algorithm : String)
    (level : Option Int)
    (h : algorithms zA lA bA algorithm = none ∨
      ∃ info, algorithms zA lA bA algorithm = some info ∧ info.available = false) :
    compress_file zA lA bA backend data algorithm level =
      compress_file zA lA bA backend data "zlib" level :=
  compress_file_eq_of_resolve_eq zA lA bA backend data algorithm "zlib" level
    (resolve_eq_fallback zA lA bA algorithm h)

/-- Witness for the amended C8: requesting the unknown name `nosuch` behaves
like requesting `zlib`. -/
theorem unsupported_codec_silent_fallback_witness :
    compress_file true true true (fun _ data _ => some data) [3] "nosuch" none =
      compress_file true true true (fun _ data _ => some data) [3] "zlib" none :=
  unsupported_codec_silent_fallback true true true _ [3] "nosuch" none
    (Or.inl rfl)

/-- Claim C5 counterexample: when the codec in use is already the fallback
`zlib` and its backend raises, `compress_file` surfaces the failure after a
single backend attempt — no retry is made. -/
theorem zlib_backend_failure_no_retry :
    compress_file true true true (fun _ _ _ => none) [1] "zlib" none =
      (Except.error (), [("zlib", 6)]) :=
  rfl

/-- Claim C5 as amended: when a codec backend raises during `compress_file`
and the resolved codec is not the fallback `zlib`, exactly one retry with
`zlib` (at its default level) is attempted, and a failure is surfaced exactly
when that retry also fails; when the resolved codec is already `zlib`, the
failure is surfaced immediately with no retry.  In `compress_directory` no
per-file exception escapes: one corrupt file among nine valid ones yields
`failed_count = 1` and `file_count = 9`. -/
theorem compress_fallback_retry_amended :
    (∀ (zA lA bA : Bool) (backend : CompressBackend) (data : List Byte)
       (algorithm : String) (level : Option Int),
      resolve_algorithm zA lA bA algorithm ≠ fallback_algorithm →
      backend (resolve_algorithm zA lA bA algorithm) data
        (select_level (algo_info zA lA bA (resolve_algorithm zA lA bA algorithm))
          level) = none →
      (compress_file zA lA bA backend data algorithm level).2 =
        [(resolve_algorithm zA lA bA algorithm,
          select_level (algo_info zA lA bA (resolve_algorithm zA lA bA algorithm))
            level),
         ("zlib", 6)] ∧
      ((compress_file zA lA bA backend data algorithm level).1 = Except.error ()
        ↔ backend "zlib" data 6 = none)) ∧
    (∀ (zA lA bA : Bool) (backend : CompressBackend) (data : List Byte)
       (algorithm : String) (level : Option Int),
      resolve_algorithm zA lA bA algorithm = fallback_algorithm →
      backend "zlib" data (select_level (algo_info zA lA bA "zlib") level) = none →
      compress_file zA lA bA backend data algorithm level =
        (Except.error (), [("zlib", select_level (algo_info zA lA bA "zlib") level)])) ∧
    (compress_directory false
      (⟨false, 100, none⟩ :: List.replicate 9 ⟨false, 100, some 40⟩)).failed_count = 1 ∧
    (compress_directory false
      (⟨false, 100, none⟩ :: List.replicate 9 ⟨false, 100, some 40⟩)).file_count = 9 := by
  refine ⟨?_, ?_, by decide, by decide⟩
  · intro zA lA bA backend data algorithm level hne hfail
    simp only [compress_file, compress_once]
    rw [hfail, if_pos hne]
    have hres : resolve_algorithm zA lA bA fallback_algorithm = "zlib" := rfl
    have hsl : select_level (algo_info zA lA bA "zlib") none = 6 := rfl
    rw [hres, hsl]
    cases hz : backend "zlib" data 6 <;> simp [hz]
  · intro zA lA bA backend data algorithm level heq hfail
    simp only [fallback_algorithm] at heq
    simp only [compress_file, compress_once, heq, hfail, fallback_algorithm]
    simp

/-- Witness for the amended C5: a failing `zstd` backend call retries once
with `zlib`; a failing `zlib` call is surfaced directly; the directory
scenario counters are checked in the theorem itself. -/
theorem compress_fallback_retry_amended_witness :
    ((compress_file true true true (fun _ _ _ => none) [1] "zstd" none).2 =
        [("zstd", 3), ("zlib", 6)] ∧
      ((compress_file true true true (fun _ _ _ => none) [1] "zstd" none).1 =
          Except.error () ↔ (none : Option (List Byte)) = none)) ∧
    compress_file true true true (fun _ _ _ => none) [1] "zlib" (some 4) =
      (Except.error (), [("zlib", 4)]) :=
  ⟨compress_fallback_retry_amended.1 true true true _ [1] "zstd" none
      (by decide) rfl,
   compress_fallback_retry_amended.2.1 true true true _ [1] "zlib" (some 4)
      rfl rfl⟩

/-- Claim C6 counterexample: with the zstandard library absent
(`ZSTD_AVAILABLE = False`), `recommend_algorithm` still returns `zstd` for a
plain text-category profile, i.e. a codec whose `available` flag is false is
selected. -/
theorem recommend_unavailable_codec :
    recommend_algorithm ⟨"text", ".txt", none, some true, none⟩ = "zstd" ∧
    (algo_info false true true "zstd").available = false :=
  ⟨rfl, rfl⟩

/-- Claim C6 as amended: `recommend_algorithm` consults no availability
information at all (its only input is the file profile), so it can recommend
a codec whose backend is absent; the unavailable recommendation is then not
honored downstream — `compress_file` silently replaces it with the fallback
`zlib`. -/
theorem recommend_ignores_availability :
    recommend_algorithm ⟨"text", ".txt", none, some true, none⟩ = "zstd" ∧
    (∀ (lA bA : Bool) (backend : CompressBackend) (data : List Byte)
       (level : Option Int),
      compress_file false lA bA backend data "zstd" level =
        compress_file false lA bA backend data "zlib" level) :=
  ⟨rfl, fun lA bA backend data level =>
    compress_file_eq_of_resolve_eq false lA bA backend data "zstd" "zlib" level
      (resolve_eq_fallback false lA bA "zstd" (Or.inr ⟨⟨false, 1, 22, 3⟩, rfl, rfl⟩))⟩

/-- Claim C2: for every codec request, byte content (including empty) and
level, compressing with `compress_file` and decompressing the artifact with
`decompress_file` driven by the sidecar metadata's `compression_type`
reproduces the original bytes exactly, assuming every opaque codec backend
satisfies `decompress (compress data level) = data`. -/
theorem compress_decompress_round_trip (zA lA bA : Bool)
    (cb : CompressBackend) (db : DecompressBackend)
    (hrt : ∀ name ∈ algorithm_names, ∀ (d : List Byte) (lvl : Int),
      ∃ out, cb name d lvl = some out ∧ db name out = some d)
    (data : List Byte) (algorithm : String) (level : Option Int)
    (ctx : FileCtx) :
    ∃ meta : CompressMeta,
      (compress_file zA lA bA cb data algorithm level).1 = Except.ok meta ∧
      decompress_file db ctx (some meta) meta.out = Except.ok data := by
  have hmem := resolve_algorithm_mem zA lA bA algorithm
  obtain ⟨out, hc, hd⟩ := hrt (resolve_algorithm zA lA bA algorithm) hmem data
    (select_level (algo_info zA lA bA (resolve_algorithm zA lA bA algorithm)) level)
  refine ⟨backend_meta (resolve_algorithm zA lA bA algorithm)
    (select_level (algo_info zA lA bA (resolve_algorithm zA lA bA algorithm)) level)
    out, ?_, ?_⟩
  · simp only [compress_file, compress_once]
    rw [hc]
  · have hok : ∀ n ∈ algorithm_names,
        n ≠ "" ∧ n ∈ decompressor_names := by decide
    have hne := hok _ hmem
    simp [decompress_file, backend_meta, hne.1, hne.2, hd]

/-- Witness for C2 with identity backends on concrete input. -/
theorem compress_decompress_round_trip_witness :
    ∃ meta : CompressMeta,
      (compress_file true true true (fun _ d _ => some d) [7, 8, 9] "zstd"
        (some 5)).1 = Except.ok meta ∧
      decompress_file (fun _ d => some d) ⟨"a.gcmp", none, none⟩ (some meta)
        meta.out = Except.ok [7, 8, 9] :=
  compress_decompress_round_trip true true true _ _
    (fun _ _ d _ => ⟨d, rfl, rfl⟩) [7, 8, 9] "zstd" (some 5)
    ⟨"a.gcmp", none, none⟩

/-- The `.gcmp` files whose sidecar reads cleanly (absent or parseable). -/
def metaReadable (f : DDirFile) : Bool :=
  f.isCompressedExt &&
    (match f.metaState with
     | MetaState.corrupt => false
     | _ => true)

/-- The `.gcmp` files whose sidecar exists but fails to parse. -/
def metaCorrupt (f : DDirFile) : Bool :=
  f.isCompressedExt &&
    (match f.metaState with
     | MetaState.corrupt => true
     | _ => false)

/-- Accumulator-generalized computation of `decompress_directory`. -/
theorem decompress_directory_fold (files : List DDirFile) :
    ∀ acc : Nat × Nat,
      files.foldl decompress_directory_step acc =
      (acc.1 + (files.filter metaReadable).length,
        acc.2 + (files.filter metaCorrupt).length) := by
  induction files with
  | nil => intro acc; simp
  | cons f fs ih =>
    intro acc
    simp only [List.foldl_cons]
    rw [ih]
    rcases f with ⟨ext, ms, ok⟩
    cases ext <;> cases ms <;> cases ok <;>
      simp [decompress_directory_step, engine_decompress_file, metaReadable,
        metaCorrupt, Nat.add_assoc, Nat.add_comm, Nat.add_left_comm]

/-- Claim C10 counterexample: a directory holding one `.gcmp` file whose
sidecar metadata file exists but fails to parse yields a success count of `0`
(not the number of `.gcmp` files, `1`) and a fail count of `1` (not `0`): the
sidecar is read outside the `try` block of `decompress_file`, so that
exception reaches `decompress_directory`'s failure branch. -/
theorem corrupt_sidecar_reaches_fail_branch :
    decompress_directory [⟨true, MetaState.corrupt, true⟩] = (0, 1) :=
  rfl

/-- Claim C10 as amended: `decompress_file` catches failures of the
decompression step itself and returns `None`, so such files are still counted
as successes; `decompress_directory`'s success count is the number of `.gcmp`
files whose sidecar metadata is absent or parseable, and its fail count — not
always `0` — is the number of `.gcmp` files whose sidecar exists but fails to
parse. -/
theorem decompress_directory_counts :
    (∀ files : List DDirFile,
      decompress_directory files =
        ((files.filter metaReadable).length, (files.filter metaCorrupt).length)) ∧
    (∀ f : DDirFile, f.metaState ≠ MetaState.corrupt → f.decompressOk = false →
      engine_decompress_file f = Except.ok none) := by
  constructor
  · intro files
    have h := decompress_directory_fold files (0, 0)
    simpa [decompress_directory] using h
  · intro f hm hk
    rcases f with ⟨ext, ms, ok⟩
    cases ms <;> simp_all [engine_decompress_file]

/-- Witness for the amended C10: one parseable-sidecar file whose
decompression fails is counted as a success, one corrupt-sidecar file as a
failure. -/
theorem decompress_directory_counts_witness :
    decompress_directory
        [⟨true, MetaState.absent, false⟩, ⟨true, MetaState.corrupt, true⟩,
         ⟨false, MetaState.absent, true⟩] = (1, 1) ∧
    engine_decompress_file ⟨true, MetaState.absent, false⟩ = Except.ok none :=
  ⟨by
      have h := decompress_directory_counts.1
        [⟨true, MetaState.absent, false⟩, ⟨true, MetaState.corrupt, true⟩,
         ⟨false, MetaState.absent, true⟩]
      rw [h]
      decide,
   decompress_directory_counts.2 ⟨true, MetaState.absent, false⟩ (by decide) rfl⟩

/-- Claim C7 (the code is the slip): `verify_file` checks size first, walks
the reference hashes in order naming the first mismatching algorithm, and
verifies when all shared fields agree — but in `verify_directory` a file with
no verification record is counted in `failed_files`, while the
`missing_verification` counter the code initializes is never incremented:
the "no verification data" outcome is conflated with a failed verification. -/
theorem missing_verification_conflated_with_failed :
    verify_directory [⟨false, false⟩] = ⟨1, 0, 1, 0⟩ ∧
    verify_file (fun a d => a ++ toString d.length) [1, 2]
      ⟨3, [("crc32", "crc322")]⟩ none = VerifyOutcome.sizeMismatch ∧
    verify_file (fun a d => a ++ toString d.length) [1, 2]
      ⟨2, [("crc32", "bad"), ("md5", "worse")]⟩ none =
        VerifyOutcome.hashMismatch "crc32" ∧
    verify_file (fun a d => a ++ toString d.length) [1, 2]
      ⟨2, [("crc32", "crc322"), ("md5", "md52")]⟩ none = VerifyOutcome.ok :=
  ⟨rfl, by decide, by decide, by decide⟩

/-- Gibbs-style bound: a finitely supported probability vector has
log-entropy (in nats) at most the logarithm of its support size, by Jensen's
inequality for the concave `Real.log`. -/
theorem sum_negMulLog_le_log_card (s : Finset Byte) (p : Byte → ℝ)
    (hpos : ∀ b ∈ s, 0 < p b) (hsum : ∑ b ∈ s, p b = 1) :
    ∑ b ∈ s, Real.negMulLog (p b) ≤ Real.log s.card := by
  have hconc : ConcaveOn ℝ (Set.Ioi (0 : ℝ)) Real.log :=
    strictConcaveOn_log_Ioi.concaveOn
  have h₀ : ∀ b ∈ s, 0 ≤ p b := fun b hb => (hpos b hb).le
  have hmem : ∀ b ∈ s, (p b)⁻¹ ∈ Set.Ioi (0 : ℝ) := fun b hb =>
    Set.mem_Ioi.mpr (inv_pos.mpr (hpos b hb))
  have hJ : ∑ b ∈ s, p b • Real.log ((p b)⁻¹) ≤
      Real.log (∑ b ∈ s, p b • (p b)⁻¹) :=
    hconc.le_map_sum h₀ hsum hmem
  have hterm : ∀ b ∈ s, Real.negMulLog (p b) = p b • Real.log ((p b)⁻¹) := by
    intro b hb
    rw [smul_eq_mul, Real.log_inv, Real.negMulLog]
    ring
  have hone : ∀ b ∈ s, p b • (p b)⁻¹ = 1 := fun b hb => by
    rw [smul_eq_mul, mul_inv_cancel₀ (ne_of_gt (hpos b hb))]
  calc ∑ b ∈ s, Real.negMulLog (p b)
      = ∑ b ∈ s, p b • Real.log ((p b)⁻¹) := Finset.sum_congr rfl hterm
    _ ≤ Real.log (∑ b ∈ s, p b • (p b)⁻¹) := hJ
    _ = Real.log s.card := by
        rw [Finset.sum_congr rfl hone, Finset.sum_const, nsmul_eq_mul, mul_one]

/-- The per-byte probabilities of a nonempty sample are positive on its
support and sum to one. -/
theorem count_div_length_prob (data : List Byte) (hne : data ≠ []) :
    (∀ b ∈ data.toFinset, 0 < (data.count b : ℝ) / (data.length : ℝ)) ∧
    ∑ b ∈ data.toFinset, (data.count b : ℝ) / (data.length : ℝ) = 1 := by
  have hlen : 0 < (data.length : ℝ) := by
    have : 0 < data.length := List.length_pos.mpr hne
    exact_mod_cast this
  constructor
  · intro b hb
    have hc : 0 < data.count b := List.count_pos_iff.mpr (List.mem_toFinset.mp hb)
    have : 0 < (data.count b : ℝ) := by exact_mod_cast hc
    positivity
  · rw [← Finset.sum_div]
    have hsum : ∑ b ∈ data.toFinset, (data.count b : ℝ) = (data.length : ℝ) := by
      have h2 : ∑ b ∈ data.toFinset, data.count b = data.length := by
        simp
      exact_mod_cast congrArg (fun n : ℕ => (n : ℝ)) h2
    rw [hsum, div_self (ne_of_gt hlen)]

/-- Claim C9: `_calculate_entropy` of the empty byte string is `0`, and for
every byte string the result lies in the closed interval `[0, 8]`. -/
theorem calculate_entropy_range :
    calculate_entropy [] = 0 ∧
    ∀ data : List Byte, 0 ≤ calculate_entropy data ∧ calculate_entropy data ≤ 8 := by
  have hlog2 : (0 : ℝ) < Real.log 2 := Real.log_pos (by norm_num)
  refine ⟨by simp [calculate_entropy], fun data => ?_⟩
  by_cases hne : data = []
  · subst hne
    norm_num [calculate_entropy]
  · obtain ⟨hpos, hsum⟩ := count_div_length_prob data hne
    have hle1 : ∀ b ∈ data.toFinset,
        (data.count b : ℝ) / (data.length : ℝ) ≤ 1 := by
      intro b hb
      have hlen : 0 < (data.length : ℝ) := by
        have : 0 < data.length := List.length_pos.mpr hne
        exact_mod_cast this
      rw [div_le_one hlen]
      exact_mod_cast List.count_le_length b data
    have hunfold : calculate_entropy data =
        ∑ b ∈ data.toFinset,
          -((data.count b : ℝ) / (data.length : ℝ) *
            Real.logb 2 ((data.count b : ℝ) / (data.length : ℝ))) := by
      rw [calculate_entropy, if_neg hne]
    constructor
    · rw [hunfold]
      apply Finset.sum_nonneg
      intro b hb
      have hlb : Real.logb 2 ((data.count b : ℝ) / (data.length : ℝ)) ≤ 0 :=
        Real.logb_nonpos (by norm_num) (hpos b hb).le (hle1 b hb)
      have := mul_nonneg (hpos b hb).le (neg_nonneg.mpr hlb)
      linarith [this]
    · have hterm : ∀ b ∈ data.toFinset,
          -((data.count b : ℝ) / (data.length : ℝ) *
            Real.logb 2 ((data.count b : ℝ) / (data.length : ℝ))) =
          Real.negMulLog ((data.count b : ℝ) / (data.length : ℝ)) / Real.log 2 := by
        intro b hb
        rw [Real.logb, Real.negMulLog]
        field_simp
      have hcard : Real.log (data.toFinset.card) ≤ Real.log 256 := by
        apply Real.log_le_log
        · have hnonempty := (List.toFinset_nonempty_iff data).mpr hne
          have : 0 < data.toFinset.card := Finset.card_pos.mpr hnonempty
          exact_mod_cast this
        · have h2 := Finset.card_le_univ data.toFinset
          rw [Fintype.card_fin] at h2
          exact_mod_cast h2
      calc calculate_entropy data
          = ∑ b ∈ data.toFinset,
              Real.negMulLog ((data.count b : ℝ) / (data.length : ℝ)) /
                Real.log 2 := by rw [hunfold]; exact Finset.sum_congr rfl hterm
        _ = (∑ b ∈ data.toFinset,
              Real.negMulLog ((data.count b : ℝ) / (data.length : ℝ))) /
                Real.log 2 := by rw [Finset.sum_div]
        _ ≤ Real.log (data.toFinset.card) / Real.log 2 :=
            (div_le_div_iff_of_pos_right hlog2).mpr
              (sum_negMulLog_le_log_card data.toFinset _ hpos hsum)
        _ ≤ Real.log 256 / Real.log 2 := (div_le_div_iff_of_pos_right hlog2).mpr hcard
        _ = 8 := by
            rw [show (256 : ℝ) = 2 ^ (8 : ℕ) by norm_num, Real.log_pow]
            field_simp

end VoidPro
